import Mathlib

/-
Verification of the error-representation and error-aggregation layer of the
registry package (src/errors.go): the ErrorCode enumeration with its
bidirectional code/string mapping, the Error envelope, and the Errors
aggregate with its Push / PushErr / Error() / Clear / Len operations.

Go's ErrorCode is an `int`; we embed it as `Int`. Go maps are embedded as
association lists of their literal entries together with lookup functions;
Go map indexing (which yields the zero value on a missing key) is embedded
explicitly where the source uses it.
-/

/-- ErrorCode represents the error type, embedded as the underlying Go int. -/
abbrev ErrorCode := Int

def ErrorCodeUnknown : ErrorCode := 0

def ErrorCodeInvalidDigest : ErrorCode := 1

def ErrorCodeInvalidLength : ErrorCode := 2

def ErrorCodeInvalidName : ErrorCode := 3

def ErrorCodeInvalidTag : ErrorCode := 4

def ErrorCodeUnknownRepository : ErrorCode := 5

def ErrorCodeUnknownManifest : ErrorCode := 6

def ErrorCodeInvalidManifest : ErrorCode := 7

def ErrorCodeUnverifiedManifest : ErrorCode := 8

def ErrorCodeUnknownLayer : ErrorCode := 9

def ErrorCodeUnknownLayerUpload : ErrorCode := 10

def ErrorCodeUntrustedSignature : ErrorCode := 11

/-- Entries of the Go map `errorCodeStrings` (code to canonical identifier). -/
def errorCodeStringsList : List (ErrorCode × String) :=
  [ (ErrorCodeUnknown, "UNKNOWN"),
    (ErrorCodeInvalidDigest, "INVALID_DIGEST"),
    (ErrorCodeInvalidLength, "INVALID_LENGTH"),
    (ErrorCodeInvalidName, "INVALID_NAME"),
    (ErrorCodeInvalidTag, "INVALID_TAG"),
    (ErrorCodeUnknownRepository, "UNKNOWN_REPOSITORY"),
    (ErrorCodeUnknownManifest, "UNKNOWN_MANIFEST"),
    (ErrorCodeInvalidManifest, "INVALID_MANIFEST"),
    (ErrorCodeUnverifiedManifest, "UNVERIFIED_MANIFEST"),
    (ErrorCodeUnknownLayer, "UNKNOWN_LAYER"),
    (ErrorCodeUnknownLayerUpload, "UNKNOWN_LAYER_UPLOAD"),
    (ErrorCodeUntrustedSignature, "UNTRUSTED_SIGNATURE") ]

/-- Entries of the Go map `errorCodesMessages` (code to human message). -/
def errorCodesMessagesList : List (ErrorCode × String) :=
  [ (ErrorCodeUnknown, "unknown error"),
    (ErrorCodeInvalidDigest, "provided digest did not match uploaded content"),
    (ErrorCodeInvalidLength, "provided length did not match content length"),
    (ErrorCodeInvalidName, "manifest name did not match URI"),
    (ErrorCodeInvalidTag, "manifest tag did not match URI"),
    (ErrorCodeUnknownRepository, "repository not known to registry"),
    (ErrorCodeUnknownManifest, "manifest not known"),
    (ErrorCodeInvalidManifest, "manifest is invalid"),
    (ErrorCodeUnverifiedManifest, "manifest failed signature validation"),
    (ErrorCodeUnknownLayer, "referenced layer not available"),
    (ErrorCodeUnknownLayerUpload, "cannot resume unknown layer upload"),
    (ErrorCodeUntrustedSignature, "manifest signed by untrusted source") ]

/-- Comma-ok lookup in the Go map `errorCodeStrings`. -/
def errorCodeStrings (ec : ErrorCode) : Option String :=
  (errorCodeStringsList.find? (fun p => p.1 == ec)).map (fun p => p.2)

/-- Comma-ok lookup in the Go map `errorCodesMessages`. -/
def errorCodesMessages (ec : ErrorCode) : Option String :=
  (errorCodesMessagesList.find? (fun p => p.1 == ec)).map (fun p => p.2)

/-- Comma-ok lookup in `stringToErrorCode`, the reverse map built at `init`
from the entries of `errorCodeStrings` (value to key). -/
def stringToErrorCode (s : String) : Option ErrorCode :=
  (errorCodeStringsList.find? (fun p => p.2 == s)).map (fun p => p.1)

/-- ParseErrorCode attempts to parse the error code string, returning
ErrorCodeUnknown if the error is not known. -/
def ParseErrorCode (s : String) : ErrorCode :=
  match stringToErrorCode s with
  | none => ErrorCodeUnknown
  | some ec => ec

/-- Go map indexing for string-valued maps: the value when the key is
present, the zero value "" otherwise. -/
def goMapIndex (o : Option String) : String :=
  match o with
  | some s => s
  | none => ""

/-- The method `(ec ErrorCode) String()`: the canonical identifier for this
error code, falling back to the entry for ErrorCodeUnknown. -/
def ErrorCodeString (ec : ErrorCode) : String :=
  match errorCodeStrings ec with
  | some s => s
  | none => goMapIndex (errorCodeStrings ErrorCodeUnknown)

/-- The method `(ec ErrorCode) Message()`: the human-readable message for
this error code, falling back to the entry for ErrorCodeUnknown. -/
def ErrorCodeMessage (ec : ErrorCode) : String :=
  match errorCodesMessages ec with
  | some m => m
  | none => goMapIndex (errorCodesMessages ErrorCodeUnknown)

/-- The method `(ec ErrorCode) MarshalText()`: the bytes of `String()`. -/
def ErrorCodeMarshalText (ec : ErrorCode) : String :=
  ErrorCodeString ec

mutual

/-- The struct `Error`: an ErrorCode, a message, and an optional detail
payload (`Detail interface\x7b\x7d`, nil embedded as `none`). -/
inductive Error : Type where
  | mk (Code : ErrorCode) (Message : String) (Detail : Option GoValue) : Error

/-- A Go `interface\x7b\x7d` value as it can appear as a detail payload: a
string, a value implementing the `error` interface, or some other value that
does not implement `error`. -/
inductive GoValue : Type where
  | str (s : String) : GoValue
  | errValue (e : GoError) : GoValue
  | other (n : Nat) : GoValue

/-- A Go `error` interface value, by dynamic type: the struct type `Error`
itself, a pointer `*Error`, or any other type implementing `error`
(carried as the string its own `Error()` method returns). -/
inductive GoError : Type where
  | errorVal (e : Error) : GoError
  | errorPtr (e : Error) : GoError
  | other (desc : String) : GoError

end

def Error.Code : Error → ErrorCode
  | .mk c _ _ => c

def Error.Message : Error → String
  | .mk _ m _ => m

def Error.Detail : Error → Option GoValue
  | .mk _ _ d => d

/-- Character-level embedding of `strings.Replace(s, "_", " ", -1)`. -/
def goReplaceUnderscore (s : String) : String :=
  ⟨s.data.map (fun c => if c = '_' then ' ' else c)⟩

/-- Character-level embedding of `strings.ToLower`. -/
def goToLower (s : String) : String :=
  ⟨s.data.map Char.toLower⟩

/-- The method `(e Error) Error()`: lowercased, space-separated code string,
then ": ", then the message. -/
def Error.errorString (e : Error) : String :=
  goToLower (goReplaceUnderscore (ErrorCodeString e.Code)) ++ ": " ++ e.Message

/-- The `Error()` method of an arbitrary Go error value. For `Error` and
`*Error` this is the value-receiver method `Error.errorString`. -/
def goErrorString : GoError → String
  | .errorVal e => e.errorString
  | .errorPtr e => e.errorString
  | .other desc => desc

/-- Embedding of `encoding/json` marshalling of `Error` per its struct tags:
`code` (no omitempty, via MarshalText), `message,omitempty` (omitted when the
string is empty), `detail,omitempty` (omitted when the interface is nil).
The result is the ordered list of emitted fields. -/
def Error.marshalJSON (e : Error) : List (String × GoValue) :=
  [("code", GoValue.str (ErrorCodeMarshalText e.Code))]
    ++ (if e.Message = "" then [] else [("message", GoValue.str e.Message)])
    ++ (match e.Detail with
        | none => []
        | some d => [("detail", d)])

/-- The struct `Errors`: the envelope holding a slice of `error` values. -/
structure Errors : Type where
  errors : List GoError

/-- The method `(errs *Errors) PushErr(err error)`: append `err` directly
when its dynamic type is `Error`, otherwise wrap it. -/
def Errors.PushErr (errs : Errors) (err : GoError) : Errors :=
  match err with
  | .errorVal _ => ⟨errs.errors ++ [err]⟩
  | _ => ⟨errs.errors ++ [.errorVal (.mk ErrorCodeUnknown (goErrorString err) none)]⟩

/-- The method `(errs *Errors) Push(code, details...)`. A variadic call with
more than one detail panics; a panic is embedded as `none`. -/
def Errors.Push (errs : Errors) (code : ErrorCode) (details : List GoValue) :
    Option Errors :=
  if details.length > 1 then
    none
  else
    let detail : Option GoValue := details.head?
    let detail : Option GoValue :=
      match detail with
      | some (GoValue.errValue ge) => some (GoValue.str (goErrorString ge))
      | d => d
    some (errs.PushErr (.errorVal (.mk code (ErrorCodeMessage code) detail)))

/-- Each element's `Error()` text followed by a newline, concatenated in
order: the shape produced by the loop in the default branch of
`(errs *Errors) Error()`. -/
def joinedDescriptions : List GoError → String
  | [] => ""
  | e :: es => goErrorString e ++ "\n" ++ joinedDescriptions es

/-- The method `(errs *Errors) Error()`: switch on `Len()` with cases 0, 1
and a default accumulation loop. -/
def Errors.errorString (errs : Errors) : String :=
  match errs.errors with
  | [] => "<nil>"
  | [e] => goErrorString e
  | es => es.foldl (fun msg err => msg ++ goErrorString err ++ "\n") "errors:\n"

/-- The method `(errs *Errors) Clear()`: the slice truncation `Errors[:0]`. -/
def Errors.Clear (errs : Errors) : Errors :=
  ⟨errs.errors.take 0⟩

/-- The method `(errs *Errors) Len()`. -/
def Errors.Len (errs : Errors) : Int :=
  errs.errors.length

/-- The twelve defined error codes. -/
def definedCodes : List ErrorCode :=
  [ ErrorCodeUnknown, ErrorCodeInvalidDigest, ErrorCodeInvalidLength,
    ErrorCodeInvalidName, ErrorCodeInvalidTag, ErrorCodeUnknownRepository,
    ErrorCodeUnknownManifest, ErrorCodeInvalidManifest,
    ErrorCodeUnverifiedManifest, ErrorCodeUnknownLayer,
    ErrorCodeUnknownLayerUpload, ErrorCodeUntrustedSignature ]

/-- The canonical strings of the twelve defined error codes: the key set of
the reverse map `stringToErrorCode`. -/
def definedStrings : List String :=
  errorCodeStringsList.map (fun p => p.2)

/-- C1: for every defined error code, the canonical-string mapping is total,
parsing the canonical string returns the same code, and no two defined codes
share a canonical string. -/
theorem parse_roundtrip_injective :
    (∀ c ∈ definedCodes, (errorCodeStrings c).isSome = true)
    ∧ (∀ c ∈ definedCodes, ParseErrorCode (ErrorCodeString c) = c)
    ∧ (∀ c₁ ∈ definedCodes, ∀ c₂ ∈ definedCodes,
        ErrorCodeString c₁ = ErrorCodeString c₂ → c₁ = c₂) := by
  refine ⟨by decide, by decide, ?_⟩
  intro c₁ h₁ c₂ h₂ heq
  have r : ∀ c ∈ definedCodes, ParseErrorCode (ErrorCodeString c) = c := by decide
  calc c₁ = ParseErrorCode (ErrorCodeString c₁) := (r c₁ h₁).symm
    _ = ParseErrorCode (ErrorCodeString c₂) := by rw [heq]
    _ = c₂ := r c₂ h₂

theorem parse_roundtrip_injective_witness :
    (errorCodeStrings ErrorCodeInvalidDigest).isSome = true
    ∧ ParseErrorCode (ErrorCodeString ErrorCodeInvalidDigest) = ErrorCodeInvalidDigest
    ∧ ErrorCodeInvalidDigest = ErrorCodeInvalidDigest :=
  ⟨parse_roundtrip_injective.1 ErrorCodeInvalidDigest (by decide),
   parse_roundtrip_injective.2.1 ErrorCodeInvalidDigest (by decide),
   parse_roundtrip_injective.2.2 ErrorCodeInvalidDigest (by decide)
     ErrorCodeInvalidDigest (by decide) rfl⟩

/-- C3: ParseErrorCode is total, returning ErrorCodeUnknown on any string
outside the reverse map, and String()/Message() on any code outside the
defined set return the fallback values "UNKNOWN" and "unknown error". -/
theorem parse_string_message_total :
    (∀ s : String, s ∉ definedStrings → ParseErrorCode s = ErrorCodeUnknown)
    ∧ (∀ c : ErrorCode, c ∉ definedCodes →
        ErrorCodeString c = "UNKNOWN" ∧ ErrorCodeMessage c = "unknown error") := by
  constructor
  · intro s hs
    have h : errorCodeStringsList.find? (fun p => p.2 == s) = none := by
      rw [List.find?_eq_none]
      intro p hp
      simp only [beq_iff_eq]
      intro hps
      exact hs (hps ▸ List.mem_map_of_mem (fun q => q.2) hp)
    simp [ParseErrorCode, stringToErrorCode, h]
  · intro c hc
    have hmem : ∀ p ∈ errorCodeStringsList, p.1 ∈ definedCodes := by decide
    have hkeys : ∀ p ∈ errorCodeStringsList, p.1 ≠ c := by
      intro p hp hpc
      exact hc (hpc ▸ hmem p hp)
    constructor
    · have h : errorCodeStringsList.find? (fun p => p.1 == c) = none := by
        rw [List.find?_eq_none]
        intro p hp
        simp only [beq_iff_eq]
        exact hkeys p hp
      simp only [ErrorCodeString, errorCodeStrings, h, Option.map_none]
      decide
    · have hmem2 : ∀ p ∈ errorCodesMessagesList, p.1 ∈ definedCodes := by decide
      have hkeys2 : ∀ p ∈ errorCodesMessagesList, p.1 ≠ c := by
        intro p hp hpc
        exact hc (hpc ▸ hmem2 p hp)
      have h : errorCodesMessagesList.find? (fun p => p.1 == c) = none := by
        rw [List.find?_eq_none]
        intro p hp
        simp only [beq_iff_eq]
        exact hkeys2 p hp
      simp only [ErrorCodeMessage, errorCodesMessages, h, Option.map_none]
      decide

theorem parse_string_message_total_witness :
    ParseErrorCode "NOT_A_CODE" = ErrorCodeUnknown
    ∧ ErrorCodeString 12 = "UNKNOWN" ∧ ErrorCodeMessage 12 = "unknown error" :=
  ⟨parse_string_message_total.1 "NOT_A_CODE" (by decide),
   (parse_string_message_total.2 12 (by decide)).1,
   (parse_string_message_total.2 12 (by decide)).2⟩

/-- Accumulating with the loop body of the default branch of `Errors.Error()`
appends the newline-terminated descriptions to the initial accumulator. -/
theorem foldl_describe_eq (l : List GoError) (init : String) :
    l.foldl (fun msg err => msg ++ goErrorString err ++ "\n") init
      = init ++ joinedDescriptions l := by
  induction l generalizing init with
  | nil => simp [joinedDescriptions]
  | cons e es ih =>
    rw [List.foldl_cons, ih]
    simp [joinedDescriptions, String.append_assoc]

/-- C4: the Errors aggregate renders as "<nil>" when empty, as the single
element's own description when it has one element, and as "errors:" plus a
newline plus each element's description on its own line, in insertion order,
when it has more than one element. -/
theorem errors_errorString_cases (errs : Errors) :
    (errs.errors.length = 0 → errs.errorString = "<nil>")
    ∧ (∀ e, errs.errors = [e] → errs.errorString = goErrorString e)
    ∧ (1 < errs.errors.length →
        errs.errorString = "errors:\n" ++ joinedDescriptions errs.errors) := by
  obtain ⟨l⟩ := errs
  refine ⟨?_, ?_, ?_⟩
  · intro h
    rw [List.length_eq_zero] at h
    subst h
    rfl
  · intro e he
    simp only at he
    subst he
    rfl
  · intro h
    cases l with
    | nil => simp at h
    | cons e1 t =>
      cases t with
      | nil => simp at h
      | cons e2 es =>
        show (e1 :: e2 :: es).foldl (fun msg err => msg ++ goErrorString err ++ "\n") "errors:\n"
          = "errors:\n" ++ joinedDescriptions (e1 :: e2 :: es)
        exact foldl_describe_eq _ _

theorem errors_errorString_cases_witness :
    Errors.errorString ⟨[]⟩ = "<nil>"
    ∧ Errors.errorString ⟨[GoError.other "a"]⟩ = goErrorString (GoError.other "a")
    ∧ Errors.errorString ⟨[GoError.other "a", GoError.other "b"]⟩
        = "errors:\n" ++ joinedDescriptions [GoError.other "a", GoError.other "b"] :=
  ⟨(errors_errorString_cases ⟨[]⟩).1 rfl,
   (errors_errorString_cases ⟨[GoError.other "a"]⟩).2.1 (GoError.other "a") rfl,
   (errors_errorString_cases ⟨[GoError.other "a", GoError.other "b"]⟩).2.2 (by decide)⟩

/-- C5: Push with two or more details panics (embedded as `none`); with zero
or one detail it does not panic and returns the updated aggregate. -/
theorem push_panics_iff_two_details (errs : Errors) (code : ErrorCode)
    (details : List GoValue) :
    (1 < details.length → errs.Push code details = none)
    ∧ (details.length ≤ 1 → (errs.Push code details).isSome = true) := by
  constructor
  · intro h
    unfold Errors.Push
    rw [if_pos h]
  · intro h
    unfold Errors.Push
    rw [if_neg (by omega)]
    rfl

theorem push_panics_iff_two_details_witness :
    Errors.Push ⟨[]⟩ ErrorCodeUnknown [GoValue.str "a", GoValue.str "b"] = none
    ∧ (Errors.Push ⟨[]⟩ ErrorCodeUnknown []).isSome = true :=
  ⟨(push_panics_iff_two_details ⟨[]⟩ ErrorCodeUnknown
      [GoValue.str "a", GoValue.str "b"]).1 (by decide),
   (push_panics_iff_two_details ⟨[]⟩ ErrorCodeUnknown []).2 (by decide)⟩

/-- C6: Push with a single detail that implements the error interface stores
the detail's Error() text as the Detail, the given code as the Code, and the
code's default message as the Message. -/
theorem push_error_detail_stringified (errs : Errors) (code : ErrorCode)
    (ge : GoError) :
    errs.Push code [GoValue.errValue ge]
      = some ⟨errs.errors ++ [GoError.errorVal
          (Error.mk code (ErrorCodeMessage code)
            (some (GoValue.str (goErrorString ge))))]⟩ := rfl

/-- C7: PushErr appends an error of dynamic type Error unchanged, and wraps
any other error value as an Error with the unknown code and the value's own
Error() text as the message, so every stored element is Error-shaped. -/
theorem pushErr_homogeneous (errs : Errors) :
    (∀ e : Error,
        errs.PushErr (GoError.errorVal e) = ⟨errs.errors ++ [GoError.errorVal e]⟩)
    ∧ (∀ err : GoError, (∀ e : Error, err ≠ GoError.errorVal e) →
        errs.PushErr err
          = ⟨errs.errors ++ [GoError.errorVal
              (Error.mk ErrorCodeUnknown (goErrorString err) none)]⟩) := by
  constructor
  · intro e
    rfl
  · intro err hne
    cases err with
    | errorVal e => exact absurd rfl (hne e)
    | errorPtr e => rfl
    | other d => rfl

theorem pushErr_homogeneous_witness :
    Errors.PushErr ⟨[]⟩ (GoError.other "boom")
      = ⟨[GoError.errorVal (Error.mk ErrorCodeUnknown "boom" none)]⟩ :=
  (pushErr_homogeneous ⟨[]⟩).2 (GoError.other "boom")
    (fun _ h => GoError.noConfusion h)

/-- C8: an Error renders as the code's canonical string lowercased with
underscores replaced by spaces, then ": ", then the message; in particular
INVALID_DIGEST with its default message renders as
"invalid digest: provided digest did not match uploaded content". -/
theorem error_errorString_format :
    (∀ e : Error, e.errorString
        = goToLower (goReplaceUnderscore (ErrorCodeString e.Code)) ++ ": " ++ e.Message)
    ∧ (Error.mk ErrorCodeInvalidDigest (ErrorCodeMessage ErrorCodeInvalidDigest)
        none).errorString
        = "invalid digest: provided digest did not match uploaded content" :=
  ⟨fun _ => rfl, by decide⟩

/-- C9: after Clear the aggregate is empty, whatever was pushed before: Len
is 0 and the rendering is "<nil>". -/
theorem clear_empties (errs : Errors) :
    errs.Clear.Len = 0 ∧ errs.Clear.errorString = "<nil>" :=
  ⟨rfl, rfl⟩

/-- C10: PushErr on an error whose dynamic type is the pointer *Error does
not append the pointed-to Error: it appends a fresh Error with the unknown
code, the original's Error() text as the message, and no detail, so the
original Code and Detail are discarded. -/
theorem pushErr_pointer_discards_fields (errs : Errors) (e : Error) :
    errs.PushErr (GoError.errorPtr e)
      = ⟨errs.errors ++ [GoError.errorVal
          (Error.mk ErrorCodeUnknown e.errorString none)]⟩ := rfl

/-- C2 as stated fails: an Error whose Message is the empty string is
serialized without a message field, because of the omitempty struct tag. -/
theorem marshalJSON_omits_empty_message :
    "message" ∉ (Error.mk ErrorCodeUnknown "" none).marshalJSON.map Prod.fst := by
  decide

/-- C2 (amended): serialization emits the code field always, as the code's
canonical string; the message field only when the message is non-empty; and
the detail field exactly when a detail is present. -/
theorem marshalJSON_fields (e : Error) :
    e.marshalJSON.lookup "code" = some (GoValue.str (ErrorCodeString e.Code))
    ∧ e.marshalJSON.lookup "message"
        = (if e.Message = "" then none else some (GoValue.str e.Message))
    ∧ e.marshalJSON.lookup "detail" = e.Detail := by
  obtain ⟨c, m, d⟩ := e
  by_cases hm : m = "" <;> cases d <;>
    simp [Error.marshalJSON, ErrorCodeMarshalText, List.lookup, hm,
      Error.Code, Error.Message, Error.Detail]
